import Mathlib

/-!
Verification of the timeline-normalization core shared by
`growth_curve_plot.py` and `growth_curve_pannel.py` (the two files agree
verbatim on all functions modelled here).

Modelling choices:
- Python `datetime` objects are modelled by the `DateTime` structure; the
  proleptic Gregorian calendar arithmetic of `datetime.__sub__` and
  `timedelta.total_seconds` is modelled by `toSeconds` (seconds since the
  epoch `0001-01-01 00:00:00`, matching `datetime.toordinal`).
- Python floats (elapsed hours, concentration values) are modelled by `ℚ`.
- A Python call that can raise models its result in `Option`: `none` is a
  raised exception propagating to the caller.
- `datetime.strptime` is modelled only at the one format string the
  normalization path passes it, `"%Y-%m-%d %H:%M:%S"`. The model follows
  CPython `_strptime`: each of `%m %d %H %M %S` matches one or two digits
  (two whenever two digits are present, per the ordered regex
  alternations, and a separator is never a digit so no further
  backtracking can occur), `%Y` matches exactly four digits, the regex
  bounds are month 1-12, day 1-31, hour 0-23, minute 0-59, second 0-61,
  the whole string must be consumed, and the `datetime` constructor then
  rejects year 0, a day beyond the month length, and leap seconds 60-61.
-/

/-- A parsed timestamp: the fields of a Python `datetime` relevant here. -/
structure DateTime where
  year : Nat
  month : Nat
  day : Nat
  hour : Nat
  minute : Nat
  second : Nat
deriving DecidableEq, Repr

/-- Gregorian leap-year rule, as in Python's `calendar.isleap`. -/
def isLeap (y : Nat) : Bool :=
  y % 4 == 0 && (y % 100 != 0 || y % 400 == 0)

/-- Length of month `m` of year `y`, as in `calendar.monthrange`. -/
def daysInMonth (y m : Nat) : Nat :=
  if m = 2 then (if isLeap y then 29 else 28)
  else if m = 4 ∨ m = 6 ∨ m = 9 ∨ m = 11 then 30
  else 31

/-- Days in the months of year `y` strictly before month `m`. -/
def daysBeforeMonth (y m : Nat) : Nat :=
  ((List.range (m - 1)).map (fun i => daysInMonth y (i + 1))).sum

/-- Days in the years strictly before year `y` (proleptic Gregorian). -/
def daysBeforeYear (y : Nat) : Nat :=
  365 * (y - 1) + (y - 1) / 4 - (y - 1) / 100 + (y - 1) / 400

/-- Seconds from `0001-01-01 00:00:00` to `dt`; differences of this
quantity model `(a - b).total_seconds()` on `datetime` values. -/
def toSeconds (dt : DateTime) : Nat :=
  (daysBeforeYear dt.year + daysBeforeMonth dt.year dt.month + (dt.day - 1)) * 86400
    + dt.hour * 3600 + dt.minute * 60 + dt.second

/-- Numeric value of a decimal digit character. -/
def digitVal (c : Char) : Nat := c.toNat - 48

/-- One numeric field of the strptime regex: consumes two digits when two
are present (then the value must lie in `lo..hi`, the two-digit
alternatives of the CPython pattern), otherwise one digit (whose value
must be at least `lo`, the one-digit alternative). -/
def parseField (lo hi : Nat) : List Char → Option (Nat × List Char)
  | c1 :: c2 :: rest =>
    if c1.isDigit then
      if c2.isDigit then
        if lo ≤ digitVal c1 * 10 + digitVal c2 ∧ digitVal c1 * 10 + digitVal c2 ≤ hi
        then some (digitVal c1 * 10 + digitVal c2, rest)
        else none
      else
        if lo ≤ digitVal c1 then some (digitVal c1, c2 :: rest) else none
    else none
  | [c1] =>
    if c1.isDigit then
      if lo ≤ digitVal c1 then some (digitVal c1, []) else none
    else none
  | [] => none

/-- The `%Y` field: exactly four digits. -/
def parseYear4 : List Char → Option (Nat × List Char)
  | a :: b :: c :: d :: rest =>
    if a.isDigit && b.isDigit && c.isDigit && d.isDigit then
      some (digitVal a * 1000 + digitVal b * 100 + digitVal c * 10 + digitVal d, rest)
    else none
  | _ => none

/-- A literal character of the format string. -/
def expectChar (ch : Char) : List Char → Option (List Char)
  | c :: rest => if c = ch then some rest else none
  | [] => none

/-- Literal whitespace of the format string: CPython substitutes `\s+` for
any whitespace run in the format, so one or more whitespace characters are
consumed. Greedy consumption is equivalent to the regex here because the
directive that follows starts with a digit and no digit is whitespace. -/
def expectWhitespace : List Char → Option (List Char)
  | c :: rest =>
    if c.isWhitespace then some (rest.dropWhile Char.isWhitespace) else none
  | [] => none

/-- Model of `parse_datetime(datetime_str, "%Y-%m-%d %H:%M:%S")`, i.e.
`datetime.strptime` at that format; `none` models the `ValueError`
raised on a string that does not match the format (including the
range checks of the `datetime` constructor). -/
def parse_datetime (s : String) : Option DateTime := do
  let (y, r) ← parseYear4 s.data
  let r ← expectChar '-' r
  let (mo, r) ← parseField 1 12 r
  let r ← expectChar '-' r
  let (d, r) ← parseField 1 31 r
  let r ← expectWhitespace r
  let (h, r) ← parseField 0 23 r
  let r ← expectChar ':' r
  let (mi, r) ← parseField 0 59 r
  let r ← expectChar ':' r
  let (sec, r) ← parseField 0 61 r
  if r = [] ∧ 1 ≤ y ∧ d ≤ daysInMonth y mo ∧ sec ≤ 59 then
    some ⟨y, mo, d, h, mi, sec⟩
  else none

/-- Numeric value of the four `%Y` digits. -/
def yearVal (a b c d : Char) : Nat :=
  digitVal a * 1000 + digitVal b * 100 + digitVal c * 10 + digitVal d

/-- Specification-side description of one numeric field: the character
run `f` denotes the value `v`, as either two digits with `lo ≤ v ≤ hi`
(the two-digit alternatives of the directive) or a single digit with
`lo ≤ v` (its one-digit alternative). -/
def fieldRep (lo hi : Nat) (f : List Char) (v : Nat) : Prop :=
  (∃ c1 c2, f = [c1, c2] ∧ c1.isDigit = true ∧ c2.isDigit = true ∧
    v = digitVal c1 * 10 + digitVal c2 ∧ lo ≤ v ∧ v ≤ hi) ∨
  (∃ c1, f = [c1] ∧ c1.isDigit = true ∧ v = digitVal c1 ∧ lo ≤ v)

/-- Specification-side matching predicate, written from the spec's words:
the text matches format `"%Y-%m-%d %H:%M:%S"` when it decomposes into a
four-digit year, dash, month field, dash, day field, whitespace, hour
field, colon, minute field, colon, second field — with every component in
range (month 1-12, a day that exists in that month and year, hour 0-23,
minute 0-59, second 0-59, year at least 1), which is what the parsed
timestamp must satisfy for the render not to abort. -/
def matchesFormat (s : String) : Prop :=
  ∃ (a b c d : Char) (ms ds ws hs mis ss : List Char) (mo dy hr mi sec : Nat),
    s.data = a :: b :: c :: d :: '-' ::
      (ms ++ '-' :: (ds ++ (ws ++ (hs ++ ':' :: (mis ++ ':' :: ss))))) ∧
    a.isDigit = true ∧ b.isDigit = true ∧ c.isDigit = true ∧ d.isDigit = true ∧
    ws ≠ [] ∧ (∀ w ∈ ws, w.isWhitespace = true) ∧
    fieldRep 1 12 ms mo ∧ fieldRep 1 31 ds dy ∧ fieldRep 0 23 hs hr ∧
    fieldRep 0 59 mis mi ∧ fieldRep 0 61 ss sec ∧
    1 ≤ yearVal a b c d ∧ dy ≤ daysInMonth (yearVal a b c d) mo ∧ sec ≤ 59

/-- Model of `calculate_time_differences_in_hours`: for each datetime,
`(dt - reference_datetime).total_seconds() / 3600.0`. -/
def calculate_time_differences_in_hours
    (datetimes : List DateTime) (reference_datetime : DateTime) : List ℚ :=
  datetimes.map
    (fun dt => ((toSeconds dt : ℚ) - (toSeconds reference_datetime : ℚ)) / 3600)

/-- Model of `filter_data_by_hour`: the list comprehension
`[(time, value) for time, value in zip(time_differences, data) if time <= max_hour]`. -/
def filter_data_by_hour
    (time_differences : List ℚ) (data : List ℚ) (max_hour : ℚ) : List (ℚ × ℚ) :=
  (time_differences.zip data).filter (fun p => decide (p.1 ≤ max_hour))

/-- Model of the comprehension
`[parse_datetime(ts, "%Y-%m-%d %H:%M:%S") for ts, _ in control_data]`:
a raised parse error propagates (`none`). -/
def parseAllTimestamps : List (String × ℚ) → Option (List DateTime)
  | [] => some []
  | (ts, _) :: rest =>
    match parse_datetime ts, parseAllTimestamps rest with
    | some dt, some dts => some (dt :: dts)
    | _, _ => none

/-- Model of `process_control_data_separate_timeline(control_data, max_hour)`.
The argument is `none` for Python `None`; `if not control_data` is true
exactly on `None` and the empty list. The inner `none` models the
(unreachable) `IndexError` of `control_datetimes[0]` on an empty list. -/
def process_control_data_separate_timeline
    (control_data : Option (List (String × ℚ))) (max_hour : ℚ) :
    Option (List (ℚ × ℚ)) :=
  match control_data with
  | none => some []
  | some data =>
    if data = [] then some []
    else
      match parseAllTimestamps data with
      | none => none
      | some control_datetimes =>
        match control_datetimes.head? with
        | none => none
        | some control_start =>
          some (filter_data_by_hour
            (calculate_time_differences_in_hours control_datetimes control_start)
            (data.map Prod.snd) max_hour)

/-- Model of the control-series preparation in
`plot_cell_counts_separate_timelines` (lines 61-63 of both files):
`diluted = process_control_data_separate_timeline(control_data_diluted, max_hour)`,
`undiluted = process_control_data_separate_timeline(control_data_undiluted, max_hour)`,
`diluted = diluted[1:] if len(diluted) > 1 else diluted`. -/
def plot_control_series
    (control_data_diluted control_data_undiluted : Option (List (String × ℚ)))
    (max_hour : ℚ) : Option (List (ℚ × ℚ) × List (ℚ × ℚ)) :=
  match process_control_data_separate_timeline control_data_diluted max_hour,
        process_control_data_separate_timeline control_data_undiluted max_hour with
  | some diluted, some undiluted =>
    some ((if diluted.length > 1 then diluted.drop 1 else diluted), undiluted)
  | _, _ => none

/-! ## Supporting lemmas -/

theorem parseAllTimestamps_cons_some {ts : String} {v : ℚ}
    {rest : List (String × ℚ)} {dts : List DateTime}
    (h : parseAllTimestamps ((ts, v) :: rest) = some dts) :
    ∃ dt dts', parse_datetime ts = some dt ∧ parseAllTimestamps rest = some dts' ∧
      dts = dt :: dts' := by
  unfold parseAllTimestamps at h
  cases hp : parse_datetime ts with
  | none => rw [hp] at h; exact absurd h (by simp)
  | some dt =>
    cases hr : parseAllTimestamps rest with
    | none => rw [hp, hr] at h; exact absurd h (by simp)
    | some dts' =>
      rw [hp, hr] at h
      exact ⟨dt, dts', rfl, rfl, (Option.some_injective _ h).symm⟩

theorem parseAllTimestamps_length :
    ∀ {data : List (String × ℚ)} {dts : List DateTime},
      parseAllTimestamps data = some dts → dts.length = data.length
  | [], dts, h => by
    simp only [parseAllTimestamps] at h
    simp [← Option.some_injective _ h]
  | (ts, v) :: rest, dts, h => by
    obtain ⟨dt, dts', _, hr, hcons⟩ := parseAllTimestamps_cons_some h
    subst hcons
    simp [parseAllTimestamps_length hr]

/-- The retained list of `process_control_data_separate_timeline`, on a
successful run over a non-empty list, is the filtered zip of the elapsed
hours with the values, with the first parsed datetime as reference. -/
theorem process_some_eq {data : List (String × ℚ)} {M : ℚ} {res : List (ℚ × ℚ)}
    (hne : data ≠ [])
    (h : process_control_data_separate_timeline (some data) M = some res) :
    ∃ dt0 dts', parseAllTimestamps data = some (dt0 :: dts') ∧
      res = filter_data_by_hour
        (calculate_time_differences_in_hours (dt0 :: dts') dt0)
        (data.map Prod.snd) M := by
  simp only [process_control_data_separate_timeline] at h
  rw [if_neg hne] at h
  cases hp : parseAllTimestamps data with
  | none => rw [hp] at h; exact absurd h (by simp)
  | some dts =>
    rw [hp] at h
    cases dts with
    | nil =>
      obtain ⟨p, rest, rfl⟩ := List.exists_cons_of_ne_nil hne
      obtain ⟨dt, dts', _, _, hcons⟩ := parseAllTimestamps_cons_some hp
      exact absurd hcons (by simp)
    | cons dt0 dts' =>
      simp only [List.head?] at h
      exact ⟨dt0, dts', rfl, (Option.some_injective _ h).symm⟩

/-! ## Claim theorems -/

/-- C2: `filter_data_by_hour` returns exactly the (elapsed, value) pairs of
`zip time_differences data` whose elapsed component satisfies
`elapsed ≤ max_hour` (inclusive), in input order without re-sorting: the
result is a sublist of the zip, every retained pair satisfies the bound,
and every sublist of pairs satisfying the bound is still a sublist of the
result (so nothing below the bound is dropped and nothing is clamped). -/
theorem filter_data_by_hour_characterization
    (time_differences data : List ℚ) (max_hour : ℚ) :
    (filter_data_by_hour time_differences data max_hour).Sublist
        (time_differences.zip data) ∧
    (∀ p ∈ filter_data_by_hour time_differences data max_hour, p.1 ≤ max_hour) ∧
    (∀ l : List (ℚ × ℚ), l.Sublist (time_differences.zip data) →
      (∀ p ∈ l, p.1 ≤ max_hour) →
      l.Sublist (filter_data_by_hour time_differences data max_hour)) := by
  refine ⟨List.filter_sublist _, ?_, ?_⟩
  · intro p hp
    exact of_decide_eq_true (List.mem_filter.mp hp).2
  · intro l hsub hall
    have hself : l.filter (fun p => decide (p.1 ≤ max_hour)) = l :=
      List.filter_eq_self.mpr (fun a ha => decide_eq_true (hall a ha))
    rw [← hself]
    exact hsub.filter _

/-- C2 witness: at `time_differences = [0, 20]`, `data = [1, 2]`,
`max_hour = 10` the three parts of the characterization hold, the third
instantiated at the qualifying sublist `[(0, 1)]`. -/
theorem filter_data_by_hour_characterization_witness :
    (filter_data_by_hour [0, 20] [1, 2] 10).Sublist [((0:ℚ), (1:ℚ)), (20, 2)] ∧
    [((0:ℚ), (1:ℚ))].Sublist (filter_data_by_hour [0, 20] [1, 2] 10) := by
  obtain ⟨h1, _, h3⟩ := filter_data_by_hour_characterization [0, 20] [1, 2] 10
  refine ⟨h1, h3 [(0, 1)] (by simp) ?_⟩
  intro p hp
  simp only [List.mem_singleton] at hp
  rw [hp]
  decide

/-- C10: `filter_data_by_hour` is total on sequences of different lengths
(it never raises): it considers exactly the first
`min (length time_differences) (length data)` positional pairs, ignoring
the surplus of the longer sequence, so its result is unchanged by
truncating both inputs to that length and is never longer than it. -/
theorem filter_data_by_hour_length_mismatch
    (time_differences data : List ℚ) (max_hour : ℚ) :
    filter_data_by_hour time_differences data max_hour
      = filter_data_by_hour
          (time_differences.take (min time_differences.length data.length))
          (data.take (min time_differences.length data.length)) max_hour ∧
    (filter_data_by_hour time_differences data max_hour).length
      ≤ min time_differences.length data.length := by
  have hzip : time_differences.zip data
      = (time_differences.take (min time_differences.length data.length)).zip
          (data.take (min time_differences.length data.length)) := by
    rw [List.zip_eq_zipWith, List.zip_eq_zipWith, ← List.take_zipWith]
    rw [List.take_of_length_le]
    rw [List.length_zipWith]
  constructor
  · unfold filter_data_by_hour
    rw [← hzip]
  · calc (filter_data_by_hour time_differences data max_hour).length
        ≤ (time_differences.zip data).length :=
          List.length_filter_le _ _
      _ = min time_differences.length data.length := List.length_zip _ _

/-- C3: an absent (`None`) or empty control series yields an empty result
for every cutoff, without raising. -/
theorem process_empty_or_absent (max_hour : ℚ) :
    process_control_data_separate_timeline none max_hour = some [] ∧
    process_control_data_separate_timeline (some []) max_hour = some [] :=
  ⟨rfl, rfl⟩

/-- C7: on a successful run the normalized series is never longer than its
source series: filtering only removes points. -/
theorem process_length_le (data : List (String × ℚ)) (max_hour : ℚ)
    (res : List (ℚ × ℚ))
    (h : process_control_data_separate_timeline (some data) max_hour = some res) :
    res.length ≤ data.length := by
  by_cases hne : data = []
  · subst hne
    simp only [process_control_data_separate_timeline, if_pos rfl] at h
    simp [← Option.some_injective _ h]
  · obtain ⟨dt0, dts', hp, hres⟩ := process_some_eq hne h
    have hlen : (dt0 :: dts').length = data.length := parseAllTimestamps_length hp
    calc res.length
        ≤ ((calculate_time_differences_in_hours (dt0 :: dts') dt0).zip
            (data.map Prod.snd)).length := by
          rw [hres]; exact List.length_filter_le _ _
      _ ≤ (calculate_time_differences_in_hours (dt0 :: dts') dt0).length :=
          le_trans (le_of_eq (List.length_zip _ _)) (min_le_left _ _)
      _ = data.length := by
          simpa [calculate_time_differences_in_hours] using hlen

/-- C7 witness: a concrete one-point series at cutoff 0 yields a one-point
result, of length at most that of the source. -/
theorem process_length_le_witness :
    ([((0:ℚ), (1:ℚ))]).length ≤ ([("2024-03-01 00:00:00", (1:ℚ))]).length := by
  refine process_length_le _ 0 _ ?_
  have h1 : parse_datetime "2024-03-01 00:00:00" = some ⟨2024, 3, 1, 0, 0, 0⟩ := by
    decide
  simp [process_control_data_separate_timeline, parseAllTimestamps, h1,
    calculate_time_differences_in_hours, filter_data_by_hour, List.filter]

/-- C1: for every non-empty raw series and every cutoff `max_hour ≥ 0`, on a
successful run the first retained point has elapsed hours exactly 0: the
reference is the first element in input order and `0 ≤ max_hour` passes
the inclusive filter. -/
theorem first_retained_point_elapsed_zero
    (data : List (String × ℚ)) (max_hour : ℚ) (res : List (ℚ × ℚ))
    (hM : 0 ≤ max_hour) (hne : data ≠ [])
    (h : process_control_data_separate_timeline (some data) max_hour = some res) :
    ∃ v, res.head? = some ((0 : ℚ), v) := by
  obtain ⟨dt0, dts', hp, hres⟩ := process_some_eq hne h
  obtain ⟨⟨ts, v0⟩, rest, rfl⟩ := List.exists_cons_of_ne_nil hne
  refine ⟨v0, ?_⟩
  rw [hres]
  simp only [calculate_time_differences_in_hours, filter_data_by_hour, List.map,
    List.zip_cons_cons, sub_self, zero_div]
  simp [List.filter_cons, hM]

/-- C1 witness: the one-point series at cutoff 0 has first retained point
with elapsed hours 0. -/
theorem first_retained_point_elapsed_zero_witness :
    ∃ v, ([((0:ℚ), (1:ℚ))]).head? = some ((0 : ℚ), v) := by
  refine first_retained_point_elapsed_zero
    [("2024-03-01 00:00:00", 1)] 0 [(0, 1)] (by decide) (by simp) ?_
  have h1 : parse_datetime "2024-03-01 00:00:00" = some ⟨2024, 3, 1, 0, 0, 0⟩ := by
    decide
  simp [process_control_data_separate_timeline, parseAllTimestamps, h1,
    calculate_time_differences_in_hours, filter_data_by_hour, List.filter]

/-- C4: cutoff monotonicity: if `M1 ≤ M2` then, on successful runs, every
point retained at `M1` is retained at `M2` and the retained points appear
in the same relative order (the `M1` result is a sublist of the `M2`
result). Parsing does not depend on the cutoff, so both runs succeed
together. -/
theorem process_cutoff_monotone
    (control_data : Option (List (String × ℚ))) (M1 M2 : ℚ)
    (r1 r2 : List (ℚ × ℚ)) (hM : M1 ≤ M2)
    (h1 : process_control_data_separate_timeline control_data M1 = some r1)
    (h2 : process_control_data_separate_timeline control_data M2 = some r2) :
    r1.Sublist r2 := by
  cases control_data with
  | none =>
    rw [show process_control_data_separate_timeline none M1 = some [] from rfl] at h1
    rw [show process_control_data_separate_timeline none M2 = some [] from rfl] at h2
    injection h1 with h1; injection h2 with h2
    rw [← h1, ← h2]
  | some data =>
    by_cases hne : data = []
    · subst hne
      rw [show process_control_data_separate_timeline (some []) M1 = some []
        from rfl] at h1
      rw [show process_control_data_separate_timeline (some []) M2 = some []
        from rfl] at h2
      injection h1 with h1; injection h2 with h2
      rw [← h1, ← h2]
    · obtain ⟨dt0, dts', hp1, hres1⟩ := process_some_eq hne h1
      obtain ⟨dt0', dts'', hp2, hres2⟩ := process_some_eq hne h2
      rw [hp1] at hp2
      injection hp2 with hp2
      injection hp2 with hd ht
      subst hd; subst ht
      rw [hres1, hres2]
      exact List.monotone_filter_right _ (fun a ha =>
        decide_eq_true (le_trans (of_decide_eq_true ha) hM))

/-- C4 witness: the one-point series at cutoffs 0 ≤ 50 gives the same
retained one-point list, a sublist of itself. -/
theorem process_cutoff_monotone_witness :
    ([((0:ℚ), (1:ℚ))]).Sublist [((0:ℚ), (1:ℚ))] := by
  have h1 : parse_datetime "2024-03-01 00:00:00" = some ⟨2024, 3, 1, 0, 0, 0⟩ := by
    decide
  refine process_cutoff_monotone (some [("2024-03-01 00:00:00", 1)]) 0 50 _ _
    (by decide) ?_ ?_ <;>
  simp [process_control_data_separate_timeline, parseAllTimestamps, h1,
    calculate_time_differences_in_hours, filter_data_by_hour, List.filter]

/-- Forward form of `process_some_eq`: with a known parse of a non-empty
series, the process result is the filtered zip directly. -/
theorem process_some_eq_forward {data : List (String × ℚ)} {dt0 : DateTime}
    {dts' : List DateTime} (M : ℚ) (hne : data ≠ [])
    (hp : parseAllTimestamps data = some (dt0 :: dts')) :
    process_control_data_separate_timeline (some data) M
      = some (filter_data_by_hour
          (calculate_time_differences_in_hours (dt0 :: dts') dt0)
          (data.map Prod.snd) M) := by
  simp only [process_control_data_separate_timeline]
  rw [if_neg hne, hp]
  rfl

/-- C5 counterexample: a non-empty series whose second point has the same
timestamp as the reference retains two points at `max_hour = 0`, not
exactly one: the claim fails on ties at elapsed 0. -/
theorem max_hour_zero_counterexample :
    process_control_data_separate_timeline
      (some [("2024-03-01 00:00:00", 1), ("2024-03-01 00:00:00", 2)]) 0
      = some [(0, 1), (0, 2)] ∧
    ([((0:ℚ), (1:ℚ)), (0, 2)]).length ≠ 1 := by
  have h1 : parse_datetime "2024-03-01 00:00:00" = some ⟨2024, 3, 1, 0, 0, 0⟩ := by
    decide
  constructor
  · simp [process_control_data_separate_timeline, parseAllTimestamps, h1,
      calculate_time_differences_in_hours, filter_data_by_hour, List.filter]
  · decide

/-- C5 amended: with `max_hour = 0`, exactly the points whose elapsed hours
are `≤ 0` are retained; whenever every non-reference point is strictly
later than the reference, exactly the reference point is retained at
elapsed 0. -/
theorem max_hour_zero_unique_retained
    (ts0 : String) (v0 : ℚ) (rest : List (String × ℚ))
    (dt0 : DateTime) (dts' : List DateTime)
    (hp : parseAllTimestamps ((ts0, v0) :: rest) = some (dt0 :: dts'))
    (hstrict : ∀ dt ∈ dts', toSeconds dt0 < toSeconds dt) :
    process_control_data_separate_timeline (some ((ts0, v0) :: rest)) 0
      = some [((0 : ℚ), v0)] := by
  rw [process_some_eq_forward 0 (by simp) hp]
  congr 1
  simp only [calculate_time_differences_in_hours, filter_data_by_hour, List.map,
    List.zip_cons_cons, sub_self, zero_div, List.filter_cons]
  rw [if_pos (show (fun p : ℚ × ℚ => decide (p.1 ≤ (0:ℚ))) (0, v0) = true from rfl)]
  rw [show ∀ l : List (ℚ × ℚ), (0, v0) :: l = [((0:ℚ), v0)] ↔ l = [] from
    fun l => by simp]
  rw [List.filter_eq_nil_iff]
  rintro ⟨q, v⟩ ha
  obtain ⟨hq, _⟩ := List.of_mem_zip ha
  obtain ⟨dt, hdt, rfl⟩ := List.mem_map.mp hq
  intro hcontra
  have hpos : (0:ℚ) < ((toSeconds dt : ℚ) - (toSeconds dt0 : ℚ)) / 3600 :=
    div_pos (sub_pos.mpr (by exact_mod_cast hstrict dt hdt)) (by norm_num)
  exact absurd (of_decide_eq_true hcontra) (not_le.mpr hpos)

/-- C5 witness: a two-point series strictly increasing after the reference
retains exactly the reference point at `max_hour = 0`. -/
theorem max_hour_zero_unique_retained_witness :
    process_control_data_separate_timeline
      (some [("2024-03-01 00:00:00", 1), ("2024-03-01 01:00:00", 2)]) 0
      = some [((0 : ℚ), 1)] :=
  max_hour_zero_unique_retained "2024-03-01 00:00:00" 1
    [("2024-03-01 01:00:00", 2)] ⟨2024, 3, 1, 0, 0, 0⟩ [⟨2024, 3, 1, 1, 0, 0⟩]
    (by decide) (by decide)

/-- C8: for the concrete raw series
`[("2024-03-01 18:40:00", 3.09e6), ("2024-03-02 10:07:00", 1.81e8)]`:
with `max_hour = 50` both points are retained with elapsed hours
`[0, 15.45]`; with `max_hour = 10` only the first point `(0, 3.09e6)`
is retained. -/
theorem example_series_cutoffs :
    process_control_data_separate_timeline
      (some [("2024-03-01 18:40:00", 3090000), ("2024-03-02 10:07:00", 181000000)])
      50
      = some [(0, 3090000), (15.45, 181000000)] ∧
    process_control_data_separate_timeline
      (some [("2024-03-01 18:40:00", 3090000), ("2024-03-02 10:07:00", 181000000)])
      10
      = some [(0, 3090000)] := by
  have h1 : parse_datetime "2024-03-01 18:40:00"
      = some ⟨2024, 3, 1, 18, 40, 0⟩ := by decide
  have h2 : parse_datetime "2024-03-02 10:07:00"
      = some ⟨2024, 3, 2, 10, 7, 0⟩ := by decide
  have t1 : toSeconds ⟨2024, 3, 1, 18, 40, 0⟩ = 63844915200 := by decide
  have t2 : toSeconds ⟨2024, 3, 2, 10, 7, 0⟩ = 63844970820 := by decide
  constructor <;>
  · simp only [process_control_data_separate_timeline, parseAllTimestamps, h1, h2,
      calculate_time_differences_in_hours, filter_data_by_hour, List.head?,
      List.map, List.zip, List.zipWith, List.filter, t1, t2]
    norm_num
    simp

/-- C9: in `plot_cell_counts_separate_timelines`, the normalized diluted
series has exactly its first point dropped when it holds more than one
point and is passed through unchanged with zero or one point, while the
normalized undiluted series is always passed through unchanged. -/
theorem diluted_skip_first
    (control_data_diluted control_data_undiluted : Option (List (String × ℚ)))
    (max_hour : ℚ) (diluted undiluted : List (ℚ × ℚ))
    (hd : process_control_data_separate_timeline control_data_diluted max_hour
      = some diluted)
    (hu : process_control_data_separate_timeline control_data_undiluted max_hour
      = some undiluted) :
    ∃ d', plot_control_series control_data_diluted control_data_undiluted max_hour
        = some (d', undiluted) ∧
      (1 < diluted.length → d' = diluted.drop 1) ∧
      (diluted.length ≤ 1 → d' = diluted) := by
  refine ⟨if diluted.length > 1 then diluted.drop 1 else diluted, ?_, ?_, ?_⟩
  · unfold plot_control_series
    rw [hd, hu]
  · intro hlen
    rw [if_pos hlen]
  · intro hlen
    rw [if_neg (by omega)]

/-- C9 witness: with both control series absent the prepared pair is
`([], [])`, the zero-point diluted series passed through unchanged. -/
theorem diluted_skip_first_witness :
    ∃ d', plot_control_series none none 50 = some (d', ([] : List (ℚ × ℚ))) ∧
      (1 < ([] : List (ℚ × ℚ)).length → d' = ([] : List (ℚ × ℚ)).drop 1) ∧
      (([] : List (ℚ × ℚ)).length ≤ 1 → d' = ([] : List (ℚ × ℚ))) :=
  diluted_skip_first none none 50 [] [] rfl rfl

/-! ## Characterization of the strptime model -/

theorem expectChar_eq_some {ch : Char} {l rest : List Char} :
    expectChar ch l = some rest ↔ l = ch :: rest := by
  cases l with
  | nil => simp [expectChar]
  | cons c t =>
    by_cases hc : c = ch
    · subst hc
      simp [expectChar]
    · simp [expectChar, hc]

theorem parseYear4_append {a b c d : Char} {rest : List Char}
    (ha : a.isDigit = true) (hb : b.isDigit = true) (hc : c.isDigit = true)
    (hd : d.isDigit = true) :
    parseYear4 (a :: b :: c :: d :: rest) = some (yearVal a b c d, rest) := by
  simp [parseYear4, ha, hb, hc, hd, yearVal]

theorem parseYear4_some {l : List Char} {y : Nat} {rest : List Char}
    (h : parseYear4 l = some (y, rest)) :
    ∃ a b c d, l = a :: b :: c :: d :: rest ∧ a.isDigit = true ∧
      b.isDigit = true ∧ c.isDigit = true ∧ d.isDigit = true ∧
      y = yearVal a b c d := by
  match l with
  | [] => simp [parseYear4] at h
  | [a] => simp [parseYear4] at h
  | [a, b] => simp [parseYear4] at h
  | [a, b, c] => simp [parseYear4] at h
  | a :: b :: c :: d :: t =>
    simp only [parseYear4] at h
    by_cases hcond : (a.isDigit && b.isDigit && c.isDigit && d.isDigit) = true
    · rw [if_pos hcond] at h
      injection h with h
      injection h with hv hrest
      simp only [Bool.and_eq_true] at hcond
      exact ⟨a, b, c, d, by rw [hrest], hcond.1.1.1, hcond.1.1.2, hcond.1.2,
        hcond.2, by rw [← hv]; rfl⟩
    · rw [if_neg hcond] at h
      cases h

theorem parseField_some {lo hi : Nat} {l rest : List Char} {v : Nat}
    (h : parseField lo hi l = some (v, rest)) :
    ∃ f, l = f ++ rest ∧ fieldRep lo hi f v := by
  match l with
  | [] => simp [parseField] at h
  | [c1] =>
    simp only [parseField] at h
    by_cases h1 : c1.isDigit = true
    · rw [if_pos h1] at h
      by_cases h2 : lo ≤ digitVal c1
      · rw [if_pos h2] at h
        injection h with h
        injection h with hv hrest
        refine ⟨[c1], by simp [← hrest], Or.inr ⟨c1, rfl, h1, hv.symm, ?_⟩⟩
        rw [← hv]; exact h2
      · rw [if_neg h2] at h; cases h
    · rw [if_neg h1] at h; cases h
  | c1 :: c2 :: t =>
    simp only [parseField] at h
    by_cases h1 : c1.isDigit = true
    · rw [if_pos h1] at h
      by_cases h2 : c2.isDigit = true
      · rw [if_pos h2] at h
        by_cases h3 : lo ≤ digitVal c1 * 10 + digitVal c2 ∧
            digitVal c1 * 10 + digitVal c2 ≤ hi
        · rw [if_pos h3] at h
          injection h with h
          injection h with hv hrest
          refine ⟨[c1, c2], by rw [← hrest]; rfl,
            Or.inl ⟨c1, c2, rfl, h1, h2, hv.symm, ?_, ?_⟩⟩
          · rw [← hv]; exact h3.1
          · rw [← hv]; exact h3.2
        · rw [if_neg h3] at h; cases h
      · rw [if_neg h2] at h
        by_cases h3 : lo ≤ digitVal c1
        · rw [if_pos h3] at h
          injection h with h
          injection h with hv hrest
          refine ⟨[c1], by rw [← hrest]; rfl,
            Or.inr ⟨c1, rfl, h1, hv.symm, ?_⟩⟩
          rw [← hv]; exact h3
        · rw [if_neg h3] at h; cases h
    · rw [if_neg h1] at h; cases h

theorem parseField_append {lo hi : Nat} {f rest : List Char} {v : Nat}
    (hrep : fieldRep lo hi f v)
    (hrest : ∀ c, rest.head? = some c → c.isDigit = false) :
    parseField lo hi (f ++ rest) = some (v, rest) := by
  rcases hrep with ⟨c1, c2, rfl, h1, h2, rfl, hlo, hhi⟩ | ⟨c1, rfl, h1, rfl, hlo⟩
  · simp [parseField, h1, h2, hlo, hhi]
  · cases rest with
    | nil => simp [parseField, h1, hlo]
    | cons c t =>
      have hc : c.isDigit = false := hrest c rfl
      simp [parseField, h1, hc, hlo]

theorem expectWhitespace_some {l rest : List Char}
    (h : expectWhitespace l = some rest) :
    ∃ ws, l = ws ++ rest ∧ ws ≠ [] ∧ ∀ w ∈ ws, w.isWhitespace = true := by
  cases l with
  | nil => simp [expectWhitespace] at h
  | cons c t =>
    simp only [expectWhitespace] at h
    by_cases hc : c.isWhitespace = true
    · rw [if_pos hc] at h
      injection h with h
      refine ⟨c :: t.takeWhile Char.isWhitespace, ?_, by simp, ?_⟩
      · rw [← h]
        simp [List.takeWhile_append_dropWhile]
      · intro w hw
        rcases List.mem_cons.mp hw with rfl | hw'
        · exact hc
        · exact List.mem_takeWhile_imp hw'
    · rw [if_neg hc] at h; cases h

theorem expectWhitespace_append {ws rest : List Char}
    (hne : ws ≠ []) (hws : ∀ w ∈ ws, w.isWhitespace = true)
    (hrest : ∀ c, rest.head? = some c → c.isWhitespace = false) :
    expectWhitespace (ws ++ rest) = some rest := by
  cases ws with
  | nil => exact absurd rfl hne
  | cons w ws' =>
    have hw : w.isWhitespace = true := hws w (by simp)
    simp only [List.cons_append, expectWhitespace, hw, if_true]
    congr 1
    rw [List.dropWhile_append_of_pos (fun a ha => hws a (by simp [ha]))]
    cases rest with
    | nil => rfl
    | cons c t =>
      have hc : c.isWhitespace = false := hrest c rfl
      simp [List.dropWhile_cons, hc]

theorem isDigit_isWhitespace_false {c : Char} (h : c.isDigit = true) :
    c.isWhitespace = false := by
  cases hw : c.isWhitespace
  · rfl
  · exfalso
    simp only [Char.isWhitespace, Bool.or_eq_true, decide_eq_true_eq] at hw
    rcases hw with ((rfl | rfl) | rfl) | rfl <;> exact absurd h (by decide)

theorem fieldRep_head_digit {lo hi : Nat} {f : List Char} {v : Nat}
    (h : fieldRep lo hi f v) : ∃ c t, f = c :: t ∧ c.isDigit = true := by
  rcases h with ⟨c1, c2, rfl, h1, _⟩ | ⟨c1, rfl, h1, _⟩
  · exact ⟨c1, [c2], rfl, h1⟩
  · exact ⟨c1, [], rfl, h1⟩

set_option maxHeartbeats 2000000 in
/-- Soundness of the strptime model: a successful parse yields a text
that matches the format. -/
theorem parse_datetime_some_matchesFormat {s : String} {dt : DateTime}
    (h : parse_datetime s = some dt) : matchesFormat s := by
  unfold parse_datetime at h
  simp only [Option.bind_eq_bind, Option.bind_eq_some] at h
  obtain ⟨⟨y, r1⟩, hy, r2, hc1, ⟨mo, r3⟩, hmo, r4, hc2, ⟨dy, r5⟩, hdy, r6, hws,
    ⟨hr, r7⟩, hhr, r8, hc3, ⟨mi, r9⟩, hmi, r10, hc4, ⟨sec, r11⟩, hsec, hfin⟩ := h
  dsimp only at hc1 hc2 hws hc3 hc4 hfin
  by_cases hcond : r11 = [] ∧ 1 ≤ y ∧ dy ≤ daysInMonth y mo ∧ sec ≤ 59
  · obtain ⟨hr11, hy1, hdm, hs59⟩ := hcond
    subst hr11
    obtain ⟨a, b, c, d, hsdata, ha, hb, hcd, hdd, hyv⟩ := parseYear4_some hy
    have h1 := expectChar_eq_some.mp hc1
    obtain ⟨fm, hfm, hrepm⟩ := parseField_some hmo
    have h2 := expectChar_eq_some.mp hc2
    obtain ⟨fd, hfd, hrepd⟩ := parseField_some hdy
    obtain ⟨ws, hws', hwne, hwall⟩ := expectWhitespace_some hws
    obtain ⟨fh, hfh, hreph⟩ := parseField_some hhr
    have h3 := expectChar_eq_some.mp hc3
    obtain ⟨fmi, hfmi, hrepmi⟩ := parseField_some hmi
    have h4 := expectChar_eq_some.mp hc4
    obtain ⟨fs, hfs, hreps⟩ := parseField_some hsec
    refine ⟨a, b, c, d, fm, fd, ws, fh, fmi, fs, mo, dy, hr, mi, sec, ?_,
      ha, hb, hcd, hdd, hwne, hwall, hrepm, hrepd, hreph, hrepmi, hreps,
      ?_, ?_, hs59⟩
    · rw [hsdata, h1, hfm, h2, hfd, hws', hfh, h3, hfmi, h4, hfs]
      simp
    · rw [← hyv]; exact hy1
    · rw [← hyv]; exact hdm
  · rw [if_neg hcond] at hfin
    cases hfin

set_option maxHeartbeats 2000000 in
/-- Completeness of the strptime model: a text matching the format
parses successfully. -/
theorem matchesFormat_parse_datetime {s : String} (hm : matchesFormat s) :
    ∃ dt, parse_datetime s = some dt := by
  obtain ⟨a, b, c, d, ms, ds, ws, hs, mis, ss, mo, dy, hr, mi, sec, hdata,
    ha, hb, hc, hd, hwne, hwall, hrm, hrd, hrh, hrmi, hrs, hy1, hdm, hs59⟩ := hm
  obtain ⟨cm, tm, rfl, hcm⟩ := fieldRep_head_digit hrm
  obtain ⟨cd2, td, rfl, hcd2⟩ := fieldRep_head_digit hrd
  obtain ⟨chh, th, rfl, hchh⟩ := fieldRep_head_digit hrh
  obtain ⟨cmi, tmi, rfl, hcmi⟩ := fieldRep_head_digit hrmi
  obtain ⟨cs, tss, rfl, hcs⟩ := fieldRep_head_digit hrs
  refine ⟨⟨yearVal a b c d, mo, dy, hr, mi, sec⟩, ?_⟩
  unfold parse_datetime
  rw [hdata]
  rw [parseYear4_append ha hb hc hd]
  simp only [Option.bind_eq_bind, Option.some_bind]
  rw [show expectChar '-' ('-' :: ((cm :: tm) ++ '-' :: ((cd2 :: td) ++ (ws ++ ((chh :: th) ++ ':' :: ((cmi :: tmi) ++ ':' :: (cs :: tss)))))))
      = some ((cm :: tm) ++ '-' :: ((cd2 :: td) ++ (ws ++ ((chh :: th) ++ ':' :: ((cmi :: tmi) ++ ':' :: (cs :: tss))))))
    from expectChar_eq_some.mpr rfl]
  simp only [Option.some_bind]
  rw [parseField_append hrm (fun c0 hc0 => by
    simp only [List.head?_cons] at hc0
    injection hc0 with hc0
    rw [← hc0]; decide)]
  simp only [Option.some_bind]
  rw [show expectChar '-' ('-' :: ((cd2 :: td) ++ (ws ++ ((chh :: th) ++ ':' :: ((cmi :: tmi) ++ ':' :: (cs :: tss))))))
      = some ((cd2 :: td) ++ (ws ++ ((chh :: th) ++ ':' :: ((cmi :: tmi) ++ ':' :: (cs :: tss)))))
    from expectChar_eq_some.mpr rfl]
  simp only [Option.some_bind]
  rw [parseField_append hrd (fun c0 hc0 => by
    cases ws with
    | nil => exact absurd rfl hwne
    | cons w tw =>
      simp only [List.cons_append, List.head?_cons] at hc0
      injection hc0 with hc0
      rw [← hc0]
      cases hdig : w.isDigit
      · rfl
      · exact absurd (isDigit_isWhitespace_false hdig) (by
          simp [hwall w (by simp)]))]
  simp only [Option.some_bind]
  rw [expectWhitespace_append hwne hwall (fun c0 hc0 => by
    simp only [List.cons_append, List.head?_cons] at hc0
    injection hc0 with hc0
    rw [← hc0]
    exact isDigit_isWhitespace_false hchh)]
  simp only [Option.some_bind]
  rw [parseField_append hrh (fun c0 hc0 => by
    simp only [List.head?_cons] at hc0
    injection hc0 with hc0
    rw [← hc0]; decide)]
  simp only [Option.some_bind]
  rw [show expectChar ':' (':' :: ((cmi :: tmi) ++ ':' :: (cs :: tss)))
      = some ((cmi :: tmi) ++ ':' :: (cs :: tss))
    from expectChar_eq_some.mpr rfl]
  simp only [Option.some_bind]
  rw [parseField_append hrmi (fun c0 hc0 => by
    simp only [List.head?_cons] at hc0
    injection hc0 with hc0
    rw [← hc0]; decide)]
  simp only [Option.some_bind]
  rw [show expectChar ':' (':' :: (cs :: tss)) = some (cs :: tss)
    from expectChar_eq_some.mpr rfl]
  simp only [Option.some_bind]
  rw [show (cs :: tss) = (cs :: tss) ++ [] from by simp]
  rw [parseField_append hrs (fun c0 hc0 => by cases hc0)]
  simp only [Option.some_bind]
  rw [if_pos ⟨trivial, hy1, hdm, hs59⟩]

/-- C6: parsing fails exactly on the texts that do not match the format
`"%Y-%m-%d %H:%M:%S"`; in particular the out-of-range timestamp
`"2024-13-01 00:00:00"` fails, a matching text returns the parsed
timestamp, and a parse failure propagates uncaught through
`process_control_data_separate_timeline` (the whole run aborts). -/
theorem parse_datetime_format_error :
    (∀ s : String, parse_datetime s = none ↔ ¬ matchesFormat s) ∧
    parse_datetime "2024-13-01 00:00:00" = none ∧
    parse_datetime "2024-03-01 18:40:00" = some ⟨2024, 3, 1, 18, 40, 0⟩ ∧
    process_control_data_separate_timeline
      (some [("2024-03-01 18:40:00", 1), ("2024-13-01 00:00:00", 2)]) 50
      = none := by
  have hbad : parse_datetime "2024-13-01 00:00:00" = none := by decide
  have hgood : parse_datetime "2024-03-01 18:40:00"
      = some ⟨2024, 3, 1, 18, 40, 0⟩ := by decide
  refine ⟨?_, hbad, hgood, ?_⟩
  · intro s
    constructor
    · intro hn hm
      obtain ⟨dt, hdt⟩ := matchesFormat_parse_datetime hm
      rw [hn] at hdt
      cases hdt
    · intro hnm
      cases hp : parse_datetime s with
      | none => rfl
      | some dt => exact absurd (parse_datetime_some_matchesFormat hp) hnm
  · simp [process_control_data_separate_timeline, parseAllTimestamps, hbad, hgood]

/-- C6 witness: the iff applied at the malformed example shows it does not
match the format. -/
theorem parse_datetime_format_error_witness :
    ¬ matchesFormat "2024-13-01 00:00:00" :=
  (parse_datetime_format_error.1 "2024-13-01 00:00:00").mp (by decide)
